import Mathlib

/-!
Shallow embedding of `src/extract_data.py`, a single-pass batch ETL script
that collects recent posts and top comments from a list of subreddits,
filters them by a time window, ranks them by score and exports the top N.

Modelling conventions:
- Python strings are sequences of code points; `String` in Lean wraps
  `List Char`, so Python slicing `s[:n]`, `s.lower()` and `s.endswith(t)`
  are embedded as structural functions over `String.data` (`pyTake`,
  `pyLower`, `pyEndsWith`).
- `datetime` values are embedded as `Int` seconds; `timedelta(days=d)` is
  `d * 86400` seconds.
- Python `sorted(..., key=f, reverse=True)` is a stable descending sort; a
  stable sort is uniquely determined by the ordering, so it is embedded as
  `List.mergeSort` with the relation `fun a b => decide (f b ≤ f a)`
  (which keeps equal keys in their original relative order, as CPython does).
- Absent attributes (`hasattr` checks) are embedded as `Option` fields with
  `none` for the absent case; Python truthiness tests on values that can be
  `None` or empty are embedded as `Option`/emptiness tests.
- Side effects that do not influence the data flow (logging, `time.sleep`,
  CSV serialization) are not modelled.
-/

/-- Python `s[:n]`: the first `n` code points of `s`. -/
def pyTake (n : Nat) (s : String) : String := ⟨s.data.take n⟩

/-- Python `s.lower()`: per-code-point lowercasing. -/
def pyLower (s : String) : String := ⟨s.data.map Char.toLower⟩

/-- Python `s.endswith(t)`: suffix test on code points. -/
def pyEndsWith (s t : String) : Bool := t.data.isSuffixOf s.data

/-- Result of `urlparse` as far as the script uses it: only the `path`
component of the URL is ever inspected (`is_image_url`, line 37). -/
structure Url where
  path : String
deriving DecidableEq, Repr

/-- Embeds `is_image_url` (lines 34-37): the parsed URL's path, lowercased,
ends with one of `.jpg`, `.jpeg`, `.png`, `.gif`. -/
def is_image_url (url : Url) : Bool :=
  let image_extensions := [".jpg", ".jpeg", ".png", ".gif"]
  image_extensions.any (fun ext => pyEndsWith (pyLower url.path) ext)

/-- Embeds the `submission.media` dict as far as line 55 reads it:
`submission.media.get('reddit_video', \x7b\x7d).get('fallback_url')` is the
`fallback_url` field, `none` when either key is missing. -/
structure Media where
  fallback_url : Option String
deriving DecidableEq, Repr

/-- One comment as the script reads it: `str(comment.author)` (already a
string here), `comment.body`, `comment.score`. -/
structure Comment where
  author : String
  body : String
  score : Int
deriving DecidableEq, Repr

/-- A submission as the script reads it.
`url` is `none` when `submission.url` is falsy (line 48); `is_video`,
`is_gallery` are `none` when the attribute is absent (`hasattr`, lines 52,
57); `media` is `none` when absent or falsy (line 54); `media_metadata` is
`none` when the attribute is absent (line 59), `some v` for its value `v`
(itself optional, since the attribute can hold `None`); `comments` is the
flattened comment forest after `replace_more(limit=0)` (line 66); `created`
is the creation timestamp in seconds.
The float field `upvote_ratio` is untouched by every claim and left out. -/
structure Submission where
  id : String
  created : Int
  link_flair_text : Option String
  title : String
  selftext : String
  score : Int
  num_comments : Nat
  url : Option Url
  is_video : Option Bool
  media : Option Media
  is_gallery : Option Bool
  media_metadata : Option (Option (List String))
  comments : List Comment
deriving DecidableEq, Repr

/-- The `media_info` dict built by `get_media_info`. -/
structure MediaInfo where
  has_image : Bool
  has_video : Bool
  image_url : Option Url
  video_url : Option String
  media_metadata : Option (List String)
deriving DecidableEq, Repr

/-- Embeds `get_media_info` (lines 39-62), mirroring the three sequential
updates of the `media_info` dict. -/
def get_media_info (submission : Submission) : MediaInfo :=
  let media_info : MediaInfo :=
    { has_image := false, has_video := false,
      image_url := none, video_url := none, media_metadata := none }
  let media_info :=
    match submission.url with
    | some u =>
      if is_image_url u then
        { media_info with has_image := true, image_url := some u }
      else media_info
    | none => media_info
  let media_info :=
    if submission.is_video.getD false then
      { media_info with
        has_video := true
        video_url :=
          (match submission.media with
          | some m => m.fallback_url
          | none => media_info.video_url) }
    else media_info
  let media_info :=
    if submission.is_gallery.getD false then
      { media_info with
        has_image := true
        media_metadata :=
          (match submission.media_metadata with
          | some v => v
          | none => media_info.media_metadata) }
    else media_info
  media_info

/-- One `\x7b'comment_body': ..., 'comment_score': ...\x7d` dict appended by
`fetch_comments` (lines 71-74). -/
structure CommentEntry where
  comment_body : String
  comment_score : Int
deriving DecidableEq, Repr

/-- The dict built at lines 71-74: body truncated to 500 code points, score. -/
def toEntry (c : Comment) : CommentEntry :=
  { comment_body := pyTake 500 c.body, comment_score := c.score }

/-- The author filter at line 70: `str(comment.author).lower() != 'automoderator'`. -/
def nonAutomod (c : Comment) : Bool :=
  pyLower c.author != "automoderator"

/-- The comparison handed to `sorted(..., key=lambda x: x.score, reverse=True)`
at line 67: `a` may stay before `b` iff `b.score ≤ a.score`. -/
def scoreDescComment (a b : Comment) : Bool := decide (b.score ≤ a.score)

/-- Embeds the `for comment in sorted_comments` loop of `fetch_comments`
(lines 69-76): skip automoderator comments, append the truncated entry,
and `break` as soon as `len(comments) >= limit` AFTER the append. -/
def fetch_loop (limit : Nat) : List Comment → List CommentEntry → List CommentEntry
  | [], comments => comments
  | c :: rest, comments =>
    if nonAutomod c then
      let comments2 := comments ++ [toEntry c]
      if limit ≤ comments2.length then comments2
      else fetch_loop limit rest comments2
    else fetch_loop limit rest comments

/-- Embeds `fetch_comments` (lines 64-77): stable-sort the flattened comment
list by score descending, then run the append/break loop. -/
def fetch_comments (cs : List Comment) (limit : Nat) : List CommentEntry :=
  fetch_loop limit (List.mergeSort cs scoreDescComment) []

/-- One flattened post record (the `post_data` dict of lines 97-121).
`created_utc` keeps the timestamp (the source formats it to a string, a
serialization detail); the numbered `comment_body_i`/`comment_score_i`
fields are kept as the ordered list `comments` (entry `i` of the list is
field index `i+1`); `gallery_item_count` is present only when the collected
`media_metadata` is truthy (lines 115-116). -/
structure PostData where
  subreddit : String
  post_id : String
  created_utc : Int
  post_flair : Option String
  title : String
  selftext : String
  score : Int
  num_comments : Nat
  url : Option Url
  has_image : Bool
  has_video : Bool
  image_url : Option Url
  video_url : Option String
  is_gallery : Bool
  gallery_item_count : Option Nat
  comments : List CommentEntry
deriving DecidableEq, Repr

/-- Embeds the record construction of lines 95-121 for one in-window
submission. -/
def build_post_data (subreddit : String) (submission : Submission)
    (comment_limit : Nat) : PostData :=
  let media_info := get_media_info submission
  { subreddit := subreddit
    post_id := submission.id
    created_utc := submission.created
    post_flair := submission.link_flair_text
    title := submission.title
    selftext := pyTake 500 submission.selftext
    score := submission.score
    num_comments := submission.num_comments
    url := submission.url
    has_image := media_info.has_image
    has_video := media_info.has_video
    image_url := media_info.image_url
    video_url := media_info.video_url
    is_gallery := submission.is_gallery.getD false
    gallery_item_count :=
      match media_info.media_metadata with
      | some l => if l.isEmpty then none else some l.length
      | none => none
    comments := fetch_comments submission.comments comment_limit }

/-- Embeds `start_date = end_date - timedelta(days=30*months)` (line 82),
in seconds. -/
def window_start (end_date : Int) (months : Nat) : Int :=
  end_date - 30 * months * 86400

/-- Embeds the `for submission in submissions` pagination loop of
`fetch_posts_from_subreddits` (lines 88-122) over the newest-first
submission stream of one subreddit: `break` at the first submission older
than `start_date`, `continue` on a submission newer than `end_date`,
otherwise build and keep the record. -/
def walk_posts (subreddit : String) (comment_limit : Nat)
    (start_date end_date : Int) : List Submission → List PostData
  | [] => []
  | submission :: rest =>
    if submission.created < start_date then []
    else if end_date < submission.created then
      walk_posts subreddit comment_limit start_date end_date rest
    else
      build_post_data subreddit submission comment_limit ::
        walk_posts subreddit comment_limit start_date end_date rest

/-- Exceptions the per-subreddit `try` block can see: a
`prawcore.exceptions.ResponseException` with its HTTP status code (429 is
the rate-limit case of line 129), or any other exception. -/
inductive RunError where
  | responseError (status : Nat)
  | otherError
deriving DecidableEq, Repr

/-- Outcome of the `try` body for one subreddit (lines 85-127): the records
appended to `all_posts` before the body finished or raised, and the
exception when one was raised. The handlers (lines 128-136) only log (and,
on a 429, sleep 60 seconds); they neither touch `all_posts` nor re-raise,
so the appended records stay and the remaining pagination of that
subreddit is abandoned. -/
structure ForumRun where
  records : List PostData
  error : Option RunError
deriving Repr

/-- Embeds the outer `for subreddit in subreddits` loop of
`fetch_posts_from_subreddits` (lines 84-138): each subreddit's `try` body
(abstracted by `run`) extends the shared `all_posts` accumulator by the
records it appended, whether or not it raised. -/
def fetch_posts_from_subreddits (run : String → ForumRun)
    (subreddits : List String) : List PostData :=
  subreddits.foldl (fun all_posts subreddit => all_posts ++ (run subreddit).records) []

/-- The comparison handed to `all_posts.sort(key=lambda x: x['score'],
reverse=True)` at line 154. -/
def scoreDescPost (a b : PostData) : Bool := decide (b.score ≤ a.score)

/-- Embeds lines 154-155 of `main`: stable-sort all records by score
descending and keep the first `post_limit`. -/
def top_posts (all_posts : List PostData) (post_limit : Nat) : List PostData :=
  (List.mergeSort all_posts scoreDescPost).take post_limit

/-- Embeds the export decision of `main` (lines 149-157): with no records
(`if not all_posts`) the run logs and returns without sorting, truncating
or writing a file (`none`); otherwise the exported rows are
`top_posts` (`some`). -/
def main_result (all_posts : List PostData) (post_limit : Nat) :
    Option (List PostData) :=
  if all_posts.isEmpty then none else some (top_posts all_posts post_limit)

/-! ### Helper lemmas -/

open List

theorem scoreDescComment_trans (a b c : Comment) :
    scoreDescComment a b → scoreDescComment b c → scoreDescComment a c := by
  simp only [scoreDescComment, decide_eq_true_eq]
  omega

theorem scoreDescComment_total (a b : Comment) :
    scoreDescComment a b || scoreDescComment b a := by
  simp only [scoreDescComment, Bool.or_eq_true, decide_eq_true_eq]
  omega

theorem scoreDescPost_trans (a b c : PostData) :
    scoreDescPost a b → scoreDescPost b c → scoreDescPost a c := by
  simp only [scoreDescPost, decide_eq_true_eq]
  omega

theorem scoreDescPost_total (a b : PostData) :
    scoreDescPost a b || scoreDescPost b a := by
  simp only [scoreDescPost, Bool.or_eq_true, decide_eq_true_eq]
  omega

/-- Closed form of the append/break loop: starting from an accumulator that
is still below the break threshold, the loop returns the accumulator
followed by the next `max 1 limit - acc.length` eligible entries. The
threshold is `max 1 limit`, not `limit`: the loop appends before it checks
`len(comments) >= limit`, so even `limit = 0` lets one entry through. -/
theorem fetch_loop_eq (limit : Nat) :
    ∀ (cs : List Comment) (acc : List CommentEntry),
      acc.length < max 1 limit →
      fetch_loop limit cs acc =
        acc ++ ((cs.filter nonAutomod).map toEntry).take (max 1 limit - acc.length)
  | [], acc, _ => by simp [fetch_loop]
  | c :: rest, acc, hacc => by
    by_cases h : nonAutomod c
    · rw [fetch_loop]
      simp only [h, if_true]
      by_cases hlim : limit ≤ (acc ++ [toEntry c]).length
      · simp only [hlim, if_true]
        have hk : max 1 limit - acc.length = 1 := by
          simp only [List.length_append, List.length_cons, List.length_nil] at hlim
          omega
        simp [h, hk]
      · simp only [hlim, if_false]
        have hlen : (acc ++ [toEntry c]).length < max 1 limit := by
          simp only [List.length_append, List.length_cons, List.length_nil] at *
          omega
        rw [fetch_loop_eq limit rest (acc ++ [toEntry c]) hlen]
        obtain ⟨k, hk⟩ : ∃ k, max 1 limit - acc.length = k + 1 :=
          ⟨max 1 limit - acc.length - 1, by omega⟩
        have hk2 : max 1 limit - (acc.length + 1) = k := by omega
        simp only [List.length_append, List.length_cons, List.length_nil,
          Nat.zero_add, Nat.add_zero, List.filter_cons, h, if_true,
          List.map_cons, hk, hk2, List.take_succ_cons, List.append_assoc,
          List.cons_append, List.nil_append]
    · rw [fetch_loop]
      simp only [h, if_false]
      rw [fetch_loop_eq limit rest acc hacc]
      simp [h]

/-- Closed form of `fetch_comments`: the first `max 1 limit` entries of the
stable-sorted, automoderator-filtered, truncated comment list. -/
theorem fetch_comments_eq (cs : List Comment) (limit : Nat) :
    fetch_comments cs limit =
      (((List.mergeSort cs scoreDescComment).filter nonAutomod).map toEntry).take
        (max 1 limit) := by
  unfold fetch_comments
  rw [fetch_loop_eq limit (List.mergeSort cs scoreDescComment) [] (by simp)]
  simp

/-- Stability of the comment sort, specialised: filtering by any predicate
that pins the score down to a single value commutes with the sort. -/
theorem mergeSort_filter_fixed_score (cs : List Comment) (r : Comment → Bool)
    (hr : ∀ a b, r a = true → r b = true → a.score = b.score) :
    (List.mergeSort cs scoreDescComment).filter r = cs.filter r := by
  have pw : (cs.filter r).Pairwise (fun a b => scoreDescComment a b) := by
    apply List.pairwise_of_forall_mem_list
    intro a ha b hb
    rw [List.mem_filter] at ha hb
    have : a.score = b.score := hr a b ha.2 hb.2
    simp [scoreDescComment, this]
  have hsub : cs.filter r <+ List.mergeSort cs scoreDescComment :=
    List.sublist_mergeSort scoreDescComment_trans scoreDescComment_total pw
      (List.filter_sublist cs)
  have hsub2 : cs.filter r <+ (List.mergeSort cs scoreDescComment).filter r := by
    have h2 := hsub.filter r
    simpa using h2
  have hperm : (List.mergeSort cs scoreDescComment).filter r ~ cs.filter r :=
    (List.mergeSort_perm cs scoreDescComment).filter r
  exact (hsub2.eq_of_length hperm.length_eq.symm).symm

/-- Provenance of selector output (shared helper): every returned entry is
the truncated image of a comment of the input that passed the
automoderator filter. -/
theorem mem_fetch_comments {cs : List Comment} {K : Nat} {e : CommentEntry}
    (he : e ∈ fetch_comments cs K) :
    ∃ c, c ∈ cs ∧ nonAutomod c = true ∧ e = toEntry c := by
  rw [fetch_comments_eq] at he
  have h1 := List.mem_of_mem_take he
  rw [List.mem_map] at h1
  obtain ⟨c, hc, rfl⟩ := h1
  rw [List.mem_filter] at hc
  exact ⟨c, List.mem_mergeSort.mp hc.1, hc.2, rfl⟩

/-- Sample comments for concrete witnesses. -/
def cAlice : Comment := { author := "alice", body := "hi", score := 5 }

/-- Claim C2 (amended): for every comment list and every limit `K ≥ 1`, the
comment selector returns exactly `min K (number of eligible comments)`
pairs — at most `K`, and fewer than `K` only when fewer eligible comments
exist. (At `K = 0` the loop appends one entry before its first limit
check, so the original `K ≥ 0` claim fails; see the counterexample.) -/
theorem fetch_comments_length_min (cs : List Comment) (K : Nat) (hK : 1 ≤ K) :
    (fetch_comments cs K).length = min K (cs.filter nonAutomod).length := by
  rw [fetch_comments_eq]
  simp only [List.length_take, List.length_map]
  have hp : (List.mergeSort cs scoreDescComment).filter nonAutomod ~
      cs.filter nonAutomod :=
    (List.mergeSort_perm cs scoreDescComment).filter nonAutomod
  rw [hp.length_eq]
  omega

/-- Witness for C2 (amended) at `K = 2` on a one-comment list. -/
theorem fetch_comments_length_min_witness :
    1 ≤ 2 ∧ (fetch_comments [cAlice] 2).length =
      min 2 (([cAlice] : List Comment).filter nonAutomod).length :=
  ⟨by decide, fetch_comments_length_min [cAlice] 2 (by decide)⟩

/-- Counterexample to C2 as stated: at `K = 0` with one eligible comment the
selector returns 1 pair, not `min 0 1 = 0`, because the loop appends before
checking `len(comments) >= limit`. -/
theorem fetch_comments_zero_limit_cex :
    (fetch_comments [cAlice] 0).length = 1 ∧
      (fetch_comments [cAlice] 0).length ≠
        min 0 (([cAlice] : List Comment).filter nonAutomod).length := by
  have h : (fetch_comments [cAlice] 0).length = 1 := by
    unfold fetch_comments
    rw [List.mergeSort_singleton]
    decide
  exact ⟨h, by rw [h]; decide⟩

/-- Claim C5: no pair returned by the comment selector comes from a comment
whose author name, lowercased, equals "automoderator". -/
theorem fetch_comments_no_automoderator (cs : List Comment) (K : Nat)
    (e : CommentEntry) (he : e ∈ fetch_comments cs K) :
    ∃ c, c ∈ cs ∧ pyLower c.author ≠ "automoderator" ∧ e = toEntry c := by
  obtain ⟨c, hmem, hna, rfl⟩ := mem_fetch_comments he
  refine ⟨c, hmem, ?_, rfl⟩
  simpa [nonAutomod] using hna

/-- Witness for C5 on a one-comment list at `K = 3`. -/
theorem fetch_comments_no_automoderator_witness :
    toEntry cAlice ∈ fetch_comments [cAlice] 3 ∧
      ∃ c, c ∈ ([cAlice] : List Comment) ∧
        pyLower c.author ≠ "automoderator" ∧ toEntry cAlice = toEntry c := by
  have hm : toEntry cAlice ∈ fetch_comments [cAlice] 3 := by
    unfold fetch_comments
    rw [List.mergeSort_singleton]
    decide
  exact ⟨hm, fetch_comments_no_automoderator [cAlice] 3 (toEntry cAlice) hm⟩

/-- Claim C6: the scores of the selector's output are non-increasing from
the first to the last returned pair, and the sort is stable: for every
score `s`, the returned entries carrying score `s` appear in the original
relative order of the eligible comments carrying score `s` (they form an
in-order subsequence of that list, truncated to entries). -/
theorem fetch_comments_scores_sorted_stable (cs : List Comment) (K : Nat) :
    (fetch_comments cs K).Pairwise
        (fun a b => b.comment_score ≤ a.comment_score) ∧
      ∀ s : Int,
        (fetch_comments cs K).filter (fun e => e.comment_score == s) <+
          (cs.filter (fun c => nonAutomod c && c.score == s)).map toEntry := by
  constructor
  · rw [fetch_comments_eq]
    have h0 : (List.mergeSort cs scoreDescComment).Pairwise
        (fun a b => scoreDescComment a b) :=
      List.sorted_mergeSort scoreDescComment_trans scoreDescComment_total cs
    have h1 : (List.mergeSort cs scoreDescComment).Pairwise
        (fun a b : Comment => b.score ≤ a.score) :=
      h0.imp (fun h => by simpa [scoreDescComment] using h)
    have h2 : ((List.mergeSort cs scoreDescComment).filter nonAutomod).Pairwise
        (fun a b : Comment => b.score ≤ a.score) :=
      h1.sublist (List.filter_sublist _)
    have h3 : (((List.mergeSort cs scoreDescComment).filter nonAutomod).map
        toEntry).Pairwise (fun a b => b.comment_score ≤ a.comment_score) := by
      rw [List.pairwise_map]
      exact h2
    exact h3.sublist (List.take_sublist _ _)
  · intro s
    have h1 : fetch_comments cs K <+
        ((List.mergeSort cs scoreDescComment).filter nonAutomod).map toEntry := by
      rw [fetch_comments_eq]
      exact List.take_sublist _ _
    have h2 := h1.filter (fun e => e.comment_score == s)
    have h3 : ((((List.mergeSort cs scoreDescComment).filter nonAutomod).map
          toEntry).filter (fun e => e.comment_score == s)) =
        ((List.mergeSort cs scoreDescComment).filter
          (fun c => nonAutomod c && c.score == s)).map toEntry := by
      rw [List.filter_map, List.filter_filter]
      congr 1
      refine List.filter_congr ?_
      intro a _
      show (((toEntry a).comment_score == s) && nonAutomod a) =
        (nonAutomod a && (a.score == s))
      rw [Bool.and_comm]
      rfl
    have h4 : (List.mergeSort cs scoreDescComment).filter
          (fun c => nonAutomod c && c.score == s) =
        cs.filter (fun c => nonAutomod c && c.score == s) := by
      apply mergeSort_filter_fixed_score
      intro a b ha hb
      rw [Bool.and_eq_true] at ha hb
      have ha2 := of_decide_eq_true ha.2
      have hb2 := of_decide_eq_true hb.2
      omega
    rw [h3, h4] at h2
    exact h2

/-- Claim C7: in every record the pipeline builds, the selftext and every
returned comment body hold at most 500 code points, whatever the input
lengths. -/
theorem post_record_truncation (subreddit : String) (submission : Submission)
    (K : Nat) :
    (build_post_data subreddit submission K).selftext.length ≤ 500 ∧
      ∀ e ∈ (build_post_data subreddit submission K).comments,
        e.comment_body.length ≤ 500 := by
  constructor
  · show (String.mk (submission.selftext.data.take 500)).length ≤ 500
    show (submission.selftext.data.take 500).length ≤ 500
    simp
  · intro e he
    have he2 : e ∈ fetch_comments submission.comments K := he
    obtain ⟨c, _, _, rfl⟩ := mem_fetch_comments he2
    show (String.mk (c.body.data.take 500)).length ≤ 500
    show (c.body.data.take 500).length ≤ 500
    simp

/-- Sample submission for concrete witnesses. -/
def sampleSubmission : Submission :=
  { id := "p1", created := 500, link_flair_text := none, title := "t",
    selftext := "body", score := 7, num_comments := 1,
    url := some { path := "/a.jpg" }, is_video := some true,
    media := some { fallback_url := some "fb" }, is_gallery := some false,
    media_metadata := none, comments := [cAlice] }

/-- Witness for C7: membership hypothesis discharged on a concrete record. -/
theorem post_record_truncation_witness :
    toEntry cAlice ∈ (build_post_data ("r") sampleSubmission 2).comments ∧
      (toEntry cAlice).comment_body.length ≤ 500 := by
  have hm : toEntry cAlice ∈ (build_post_data ("r") sampleSubmission 2).comments := by
    show toEntry cAlice ∈ fetch_comments [cAlice] 2
    unfold fetch_comments
    rw [List.mergeSort_singleton]
    decide
  exact ⟨hm, (post_record_truncation ("r") sampleSubmission 2).2 (toEntry cAlice) hm⟩

/-- Closed form of the pagination loop (shared helper): under newest-first
(non-increasing timestamp) input, the walker keeps exactly the submissions
whose timestamp lies in `[start_date, end_date]`, in order, as records. -/
theorem walk_posts_eq_filter (subreddit : String) (K : Nat) (sd ed : Int) :
    ∀ (subs : List Submission),
      subs.Pairwise (fun a b => b.created ≤ a.created) →
      walk_posts subreddit K sd ed subs =
        (subs.filter (fun s => decide (sd ≤ s.created) &&
          decide (s.created ≤ ed))).map (fun s => build_post_data subreddit s K)
  | [], _ => by simp [walk_posts]
  | sub :: rest, h => by
    rw [List.pairwise_cons] at h
    rw [walk_posts]
    by_cases h1 : sub.created < sd
    · rw [if_pos h1]
      have hnil : ((sub :: rest).filter (fun s => decide (sd ≤ s.created) &&
          decide (s.created ≤ ed))) = [] := by
        rw [List.filter_eq_nil_iff]
        intro a ha
        rcases List.mem_cons.mp ha with rfl | ha'
        · simp only [Bool.and_eq_true, decide_eq_true_eq, not_and]
          omega
        · have h3 := h.1 a ha'
          simp only [Bool.and_eq_true, decide_eq_true_eq, not_and]
          omega
      rw [hnil]
      rfl
    · rw [if_neg h1]
      by_cases h2 : ed < sub.created
      · rw [if_pos h2, walk_posts_eq_filter subreddit K sd ed rest h.2,
          List.filter_cons]
        simp only [Bool.and_eq_true, decide_eq_true_eq]
        have hcc : ¬ (sd ≤ sub.created ∧ sub.created ≤ ed) := by omega
        rw [if_neg hcc]
      · rw [if_neg h2, walk_posts_eq_filter subreddit K sd ed rest h.2,
          List.filter_cons]
        simp only [Bool.and_eq_true, decide_eq_true_eq]
        have hcc : sd ≤ sub.created ∧ sub.created ≤ ed := by
          constructor <;> omega
        rw [if_pos hcc]
        rfl

/-- Claim C1: given newest-first input, a post enters the walker's result
iff its creation timestamp lies in `[now - 30*months days, now]`; posts
newer than the window end are skipped and the first post older than the
window start cuts the iteration off, so nothing after it is processed —
together: the result is exactly the in-window submissions, flattened. -/
theorem walker_window_inclusion (subreddit : String) (K months : Nat)
    (now : Int) (subs : List Submission)
    (h : subs.Pairwise (fun a b => b.created ≤ a.created)) :
    walk_posts subreddit K (window_start now months) now subs =
      (subs.filter (fun s => decide (window_start now months ≤ s.created) &&
        decide (s.created ≤ now))).map (fun s => build_post_data subreddit s K) :=
  walk_posts_eq_filter subreddit K (window_start now months) now subs h

/-- Sample submission with a chosen timestamp, for the C1 witness. -/
def subAt (created : Int) : Submission :=
  { id := "p", created := created, link_flair_text := none, title := "t",
    selftext := "s", score := 1, num_comments := 0, url := none,
    is_video := none, media := none, is_gallery := none,
    media_metadata := none, comments := [] }

/-- Witness for C1: a newest-first list with one too-new, one in-window and
one too-old submission (now = 1000000, months = 1). -/
theorem walker_window_inclusion_witness :
    ([subAt 1000001, subAt 500, subAt (-2592001 + 1000000 - 1)] :
        List Submission).Pairwise (fun a b => b.created ≤ a.created) ∧
      walk_posts ("r") 1 (window_start 1000000 1) 1000000
          [subAt 1000001, subAt 500, subAt (-2592001 + 1000000 - 1)] =
        (([subAt 1000001, subAt 500, subAt (-2592001 + 1000000 - 1)] :
          List Submission).filter (fun s =>
            decide (window_start 1000000 1 ≤ s.created) &&
            decide (s.created ≤ 1000000))).map
          (fun s => build_post_data ("r") s 1) := by
  have hp : ([subAt 1000001, subAt 500, subAt (-2592001 + 1000000 - 1)] :
      List Submission).Pairwise (fun a b => b.created ≤ a.created) := by
    decide
  exact ⟨hp, walker_window_inclusion ("r") 1 1 1000000 _ hp⟩

/-- Claim C3: the exported sequence has length `min post_limit (number of
collected records)` and its scores are non-increasing (sorted descending
across all forums). -/
theorem top_posts_length_sorted (all_posts : List PostData) (post_limit : Nat) :
    (top_posts all_posts post_limit).length = min post_limit all_posts.length ∧
      (top_posts all_posts post_limit).Pairwise (fun a b => b.score ≤ a.score) := by
  constructor
  · unfold top_posts
    simp
  · unfold top_posts
    have h0 := List.sorted_mergeSort scoreDescPost_trans scoreDescPost_total
      all_posts
    have h1 : (List.mergeSort all_posts scoreDescPost).Pairwise
        (fun a b : PostData => b.score ≤ a.score) :=
      h0.imp (fun h => by simpa [scoreDescPost] using h)
    exact h1.sublist (List.take_sublist _ _)

/-- Accumulator form of the forum fold (shared helper). -/
theorem fetch_posts_foldl_acc (run : String → ForumRun) :
    ∀ (l : List String) (acc : List PostData),
      l.foldl (fun all_posts subreddit => all_posts ++ (run subreddit).records) acc =
        acc ++ l.foldl (fun all_posts subreddit => all_posts ++ (run subreddit).records) []
  | [], acc => by simp
  | n :: rest, acc => by
    simp only [List.foldl_cons]
    rw [fetch_posts_foldl_acc run rest (acc ++ (run n).records),
      fetch_posts_foldl_acc run rest (List.nil ++ (run n).records)]
    simp [List.append_assoc]

/-- Claim C4: failures are isolated per forum. If the forum `bad` raises any
exception `e` (a rate-limit `responseError 429` included) after having
appended `recs`, the run's result is still the records of the forums before
it, then `recs`, then the records of every forum after it — earlier records
are retained and every subsequent forum is processed. -/
theorem forum_failure_isolation (run : String → ForumRun) (pre : List String)
    (bad : String) (post : List String) (recs : List PostData) (e : RunError)
    (h : run bad = { records := recs, error := some e }) :
    fetch_posts_from_subreddits run (pre ++ bad :: post) =
      fetch_posts_from_subreddits run pre ++ recs ++
        fetch_posts_from_subreddits run post := by
  unfold fetch_posts_from_subreddits
  rw [List.foldl_append, List.foldl_cons, h]
  rw [fetch_posts_foldl_acc run post]

/-- Sample record for the C4 witness. -/
def samplePost : PostData :=
  { subreddit := "A", post_id := "p1", created_utc := 0, post_flair := none,
    title := "t", selftext := "s", score := 2, num_comments := 0, url := none,
    has_image := false, has_video := false, image_url := none,
    video_url := none, is_gallery := false, gallery_item_count := none,
    comments := [] }

/-- Forum-run table for the C4 witness: forum "A" raises HTTP 429 after one
record, the others succeed with no records. -/
def sampleRunTable (n : String) : ForumRun :=
  if n = "A" then
    { records := [samplePost], error := some (RunError.responseError 429) }
  else { records := [], error := none }

/-- Witness for C4: a 429 on forum "A" between forums "Z" and "B". -/
theorem forum_failure_isolation_witness :
    sampleRunTable ("A") =
        { records := [samplePost], error := some (RunError.responseError 429) } ∧
      fetch_posts_from_subreddits sampleRunTable (["Z"] ++ "A" :: ["B"]) =
        fetch_posts_from_subreddits sampleRunTable ["Z"] ++ [samplePost] ++
          fetch_posts_from_subreddits sampleRunTable ["B"] :=
  ⟨rfl, forum_failure_isolation sampleRunTable ["Z"] ("A") ["B"] [samplePost]
    (RunError.responseError 429) rfl⟩

/-- Claim C8: with zero collected records the run produces no output file
and performs none of the export steps. -/
theorem main_no_records_no_output (all_posts : List PostData)
    (post_limit : Nat) (h : all_posts = []) :
    main_result all_posts post_limit = none := by
  subst h
  rfl

/-- Witness for C8 at `post_limit = 3`. -/
theorem main_no_records_no_output_witness :
    ([] : List PostData) = [] ∧ main_result [] 3 = none :=
  ⟨rfl, main_no_records_no_output [] 3 rfl⟩

/-- Closed form of `get_media_info` (shared helper): each output field as a
direct function of the submission's fields. -/
theorem get_media_info_eq (s : Submission) :
    get_media_info s =
      { has_image := (match s.url with
            | some u => is_image_url u
            | none => false) || s.is_gallery.getD false
        has_video := s.is_video.getD false
        image_url := (match s.url with
            | some u => if is_image_url u then some u else none
            | none => none)
        video_url := if s.is_video.getD false then
            (match s.media with
            | some m => m.fallback_url
            | none => none)
          else none
        media_metadata := if s.is_gallery.getD false then
            (match s.media_metadata with
            | some v => v
            | none => none)
          else none } := by
  unfold get_media_info
  rcases hs : s.url with _ | u
  · by_cases hv : s.is_video.getD false <;> by_cases hg : s.is_gallery.getD false <;>
      simp [hs, hv, hg]
  · by_cases hi : is_image_url u <;> by_cases hv : s.is_video.getD false <;>
      by_cases hg : s.is_gallery.getD false <;>
      simp [hs, hi, hv, hg]

/-- Claim C9: `has_image` is true iff the URL's lowercased path ends with
one of exactly `.jpg`/`.jpeg`/`.png`/`.gif` (the `is_image_url` test) or
the provider-supplied gallery flag is true (which forces `has_image`
regardless of the URL); `image_url` is set (to the post URL) exactly in
the extension-match case. -/
theorem media_image_classification (submission : Submission) :
    ((get_media_info submission).has_image = true ↔
      ((∃ u, submission.url = some u ∧ is_image_url u = true) ∨
        submission.is_gallery.getD false = true)) ∧
    ∀ u : Url, ((get_media_info submission).image_url = some u ↔
      (submission.url = some u ∧ is_image_url u = true)) := by
  rw [get_media_info_eq]
  constructor
  · rcases hs : submission.url with _ | u <;> simp [hs]
  · intro u
    rcases hs : submission.url with _ | u2 <;> simp only [hs]
    · simp
    · by_cases hi : is_image_url u2
      · rw [if_pos hi]
        constructor
        · intro h
          injection h with h
          subst h
          exact ⟨rfl, hi⟩
        · intro h
          injection h.1 with h1
          subst h1
          rfl
      · rw [if_neg hi]
        constructor
        · intro h
          exact Option.noConfusion h
        · intro h
          injection h.1 with h1
          subst h1
          exact absurd h.2 hi

/-- Claim C10: `image_url` is non-null only if `has_image` is true and
`video_url` is non-null only if `has_video` is true. -/
theorem media_url_flag_invariant (submission : Submission) :
    ((get_media_info submission).image_url.isSome = true →
      (get_media_info submission).has_image = true) ∧
    ((get_media_info submission).video_url.isSome = true →
      (get_media_info submission).has_video = true) := by
  rw [get_media_info_eq]
  constructor
  · intro h
    rcases hs : submission.url with _ | u
    · simp [hs] at h
    · simp [hs] at h ⊢
      by_cases hi : is_image_url u
      · simp [hi]
      · simp [hi] at h
  · intro h
    by_cases hv : submission.is_video.getD false
    · exact hv
    · rw [if_neg hv] at h
      simp at h

/-- Witness for C10: a concrete submission carrying both an image URL and a
video fallback URL. -/
theorem media_url_flag_invariant_witness :
    (get_media_info sampleSubmission).image_url.isSome = true ∧
      (get_media_info sampleSubmission).video_url.isSome = true ∧
      (get_media_info sampleSubmission).has_image = true ∧
      (get_media_info sampleSubmission).has_video = true := by
  have h := media_url_flag_invariant sampleSubmission
  have h1 : (get_media_info sampleSubmission).image_url.isSome = true := by decide
  have h2 : (get_media_info sampleSubmission).video_url.isSome = true := by decide
  exact ⟨h1, h2, h.1 h1, h.2 h2⟩
